import Mathlib

/-!
A shallow embedding of `counterpartylib/lib/messages/dividend.py` and proofs
about its validation, payout, wire-decoding, persistence and activation logic.

Modelling conventions:
* Python integers are `ℤ` (or `ℕ` for raw wire fields), with explicit clamping.
* The payout arithmetic of lines 204-208 runs through CPython numbers: the
  product is an `int`, and `/= config.UNIT` is true division producing an
  IEEE-754 binary64 float.  A number is modelled by its exact value, a dyadic
  `mant * 2 ^ exp` (`PyNum`); `int / int` is the correctly rounded exact
  quotient (CPython's `long_true_divide`), `float / int` converts the divisor
  with `float(int)` and then performs correctly rounded binary64 division,
  comparisons between a float and an int are exact, and `int()` truncates the
  exact value toward zero.  Infinities, NaNs, subnormals and overflow are not
  modelled: every quantity reachable from storable balances
  (`|value| ≤ MAX_INT^2`) stays far inside the binary64 normal range, where
  this model agrees with CPython bit-for-bit.
* Database reads are a pure `Ledger` record of query functions.
* A Python statement that necessarily raises is modelled by `Except.error`
  carrying a `PyError` describing the exception.
-/

namespace DividendMod

set_option maxRecDepth 16384

/-- The exact value of a CPython number in the payout computation — an `int`
(`exp = 0`) or a finite binary64 float — represented as `mant * 2 ^ exp`. -/
structure PyNum where
  mant : ℤ
  exp : ℤ
deriving DecidableEq, Repr

/-- Round-half-even of the positive rational `p / q` to 53 significant bits:
scales until `2 ^ 52 ≤ p / q < 2 ^ 53` (adjusting the binary exponent `e`),
then rounds the quotient to an integer, ties to even.  The fuel bounds the
exponent search; 4200 covers the whole binary64 finite range, and every
value reachable in this development normalizes well within it. -/
def normRound : ℕ → ℕ → ℕ → ℤ → ℕ × ℤ
  | 0, p, q, e => (p / q, e)
  | fuel + 1, p, q, e =>
    if p < q * 2 ^ 52 then normRound fuel (2 * p) q (e - 1)
    else if q * 2 ^ 53 ≤ p then normRound fuel p (2 * q) (e + 1)
    else
      let m := p / q
      let r := p % q
      if 2 * r < q then (m, e)
      else if q < 2 * r then (m + 1, e)
      else if m % 2 = 0 then (m, e) else (m + 1, e)

/-- The exact rational `n / d` correctly rounded to binary64
(round-to-nearest, ties-to-even), as an exact dyadic value.  Rounding is
sign-symmetric, as in IEEE-754. -/
def roundRat (n : ℤ) (d : ℕ) : PyNum :=
  if n = 0 then ⟨0, 0⟩
  else
    let s : ℤ := if n < 0 then -1 else 1
    let me := normRound 4200 n.natAbs d 0
    ⟨s * (me.1 : ℤ), me.2⟩

/-- CPython `int / int` true division: the exact quotient, correctly rounded
to binary64. -/
def pyIntTrueDiv (x : ℤ) (u : ℕ) : PyNum := roundRat x u

/-- CPython `float(int)`: the integer correctly rounded to binary64. -/
def pyFloatOfNat (u : ℕ) : PyNum := roundRat (u : ℤ) 1

/-- CPython `float / int`: converts the divisor with `float(int)`, then
performs binary64 division (the correctly rounded exact quotient of the two
doubles). -/
def pyFloatDivNat (a : PyNum) (u : ℕ) : PyNum :=
  let b := pyFloatOfNat u
  let k : ℤ := a.exp - b.exp
  if 0 ≤ k then roundRat (a.mant * 2 ^ k.toNat) b.mant.toNat
  else roundRat a.mant (b.mant.toNat * 2 ^ (-k).toNat)

/-- CPython `number < m` for an integer `m`: an exact comparison of the
number's value with the integer. -/
def PyNum.ltNat (a : PyNum) (m : ℕ) : Bool :=
  if 0 ≤ a.exp then decide (a.mant * 2 ^ a.exp.toNat < (m : ℤ))
  else decide (a.mant < (m : ℤ) * 2 ^ (-a.exp).toNat)

/-- Python `int()` applied to the number: truncation of the exact value
toward zero. -/
def PyNum.trunc (a : PyNum) : ℤ :=
  if 0 ≤ a.exp then a.mant * 2 ^ a.exp.toNat
  else Int.tdiv a.mant (2 ^ (-a.exp).toNat)

/-- Modelled from the spec: the `config` module is not under `src/`.
`unit` is the fixed subunit scale (`config.UNIT`), `maxInt` the storage
layer's maximum representable integer (`config.MAX_INT`), `dust` the minimum
dust threshold (`config.DEFAULT_MULTISIG_DUST_SIZE`), `maxActivation` the
maximum activation horizon (`config.MAX_ACTIVATION`), `testnet` the network
flag (`config.TESTNET`), and `scheduledEnabled` the feature switch
`util.enabled('scheduled_dividends')`. -/
structure Config where
  testnet : Bool
  unit : ℕ
  maxInt : ℤ
  dust : ℕ
  maxActivation : ℤ
  scheduledEnabled : Bool
deriving DecidableEq, Repr

/-- Modelled from the spec: `config.BTC`, the base-chain currency name. -/
def BTC : String := "BTC"

/-- Modelled from the spec: `config.XCP`, the protocol fee-asset name. -/
def XCP : String := "XCP"

/-- A row of `util.holders(db, asset)`. -/
structure Holder where
  address : String
  address_quantity : ℤ
  escrow : Bool
deriving DecidableEq, Repr

/-- An element of the `outputs` list built by `validate`. -/
structure Output where
  address : String
  address_quantity : ℤ
  dividend_quantity : ℤ
deriving DecidableEq, Repr

/-- A row of the `issuances` table (status `valid`, ordered by `tx_index`). -/
structure Issuance where
  issuer : String
  divisible : Bool
  locked : Bool
  quantity : ℤ
deriving DecidableEq, Repr

/-- Modelled from the spec: the ledger-query collaborator (`util.holders`,
issuance and balance queries, asset-name resolution) is not under `src/`.
`balance a b` is the `quantity` of the first `balances` row for address `a`
and asset `b`, or `none` when the query returns no row. -/
structure Ledger where
  issuancesOf : String → List Issuance
  holdersOf : String → List Holder
  balance : String → String → Option ℤ
  assetName : ℕ → Option String
  assetId : String → Option ℕ
  resolveSubasset : String → String

deriving instance DecidableEq for Except

/-- Exceptions escaping a modelled call. -/
inductive PyError where
  | valueError
  | typeError
  | unboundLocal (n : String)
  | nameError (n : String)
  | structMismatch
  | strayContinue
  | composeFailure (problems : List String)
  | assetIdFailure
deriving DecidableEq, Repr

/- Problem strings, exactly as formatted in `validate`. -/

def cannotPayMsg (a : String) : String := "cannot pay dividends to holders of " ++ a

def nonPositiveMsg : String := "non‐positive quantity per unit"

def overflowMsg : String := "integer overflow"

def negativeActivationMsg : String := "negative activation"

def integerDeltaMsg : String := "activation must be expressed as an integer block delta"

def futureMsg : String := "activation must be future block height"

def lead144Msg : String := "activation must be 144 or more blocks from now"

def activationOverflowMsg : String := "activation overflow"

def schedDisabledMsg : String := "scheduled dividends are not enabled"

def noSuchAssetMsg (a : String) : String := "no such asset, " ++ a ++ "."

def onlyIssuerMsg : String := "only issuer can pay dividends"

def lockedMsg : String := "asset and dividend_asset must be locked"

def noSuchDividendAssetMsg (a : String) : String := "no such dividend asset, " ++ a ++ "."

def zeroDividendMsg : String := "zero dividend"

def insufficientMsg (a : String) : String := "insufficient funds (" ++ a ++ ")"

/-- Lines 204-208: the per-holder quantity before `int()` truncation:
`address_quantity * quantity_per_unit` (an exact `int`), divided by
`config.UNIT` when the held asset is divisible, divided by `config.UNIT`
again when the dividend asset is not divisible.  The first `/=` executed is
`int / int` true division; a second `/=` then divides the resulting float by
the unit (`float / int`).  If only the non-divisible-dividend `/=` runs, it
is again `int / int`. -/
def holderPayout (cfg : Config) (divisible dividendDivisible : Bool) (qpu bal : ℤ) : PyNum :=
  let x := bal * qpu
  if divisible then
    let d := pyIntTrueDiv x cfg.unit
    if dividendDivisible then d else pyFloatDivNat d cfg.unit
  else
    if dividendDivisible then ⟨x, 0⟩ else pyIntTrueDiv x cfg.unit

/-- Lines 194-212: the immediate-dividend holder loop of `validate`.
Returns `(outputs, addresses, dividend_total)`. -/
def dividendOutputs (cfg : Config) (source : String) (blockIndex : ℤ)
    (divisible dividendDivisible : Bool) (dividendAsset : String) (qpu : ℤ) :
    List Holder → List Output × List String × ℤ
  | [] => ([], [], 0)
  | h :: rest =>
    if blockIndex < 294500 ∧ cfg.testnet = false ∧ h.escrow then
      -- pre-294500 escrowed holders are skipped on the production network
      dividendOutputs cfg source blockIndex divisible dividendDivisible dividendAsset qpu rest
    else if (blockIndex ≥ 296000 ∨ cfg.testnet) ∧ h.address = source then
      -- post-296000 (or testnet) the source is excluded from its own dividend
      dividendOutputs cfg source blockIndex divisible dividendDivisible dividendAsset qpu rest
    else
      let q := holderPayout cfg divisible dividendDivisible qpu h.address_quantity
      if dividendAsset = BTC ∧ q.ltNat cfg.dust then
        -- BTC dividends below the dust threshold skip the holder entirely
        dividendOutputs cfg source blockIndex divisible dividendDivisible dividendAsset qpu rest
      else
        let r := dividendOutputs cfg source blockIndex divisible dividendDivisible dividendAsset qpu rest
        (⟨h.address, h.address_quantity, q.trunc⟩ :: r.1, h.address :: r.2.1, q.trunc + r.2.2)

/-- C1 amended: every included holder's output quantity is the truncation of
the per-holder quantity as the code computes it — the exact integer product
divided by the subunit scale with correctly rounded binary64 true division,
once for a divisible held asset and once more for a non-divisible dividend
asset — an included holder is never a skipped dust case, and the returned
total is the plain sum of the per-holder truncated quantities with no
redistribution of remainders. -/
theorem dividendOutputs_formula (cfg : Config) (source : String) (blockIndex : ℤ)
    (divisible dividendDivisible : Bool) (dividendAsset : String) (qpu : ℤ)
    (holders : List Holder) :
    (∀ o ∈ (dividendOutputs cfg source blockIndex divisible dividendDivisible dividendAsset qpu holders).1,
        o.dividend_quantity =
          (holderPayout cfg divisible dividendDivisible qpu o.address_quantity).trunc ∧
        (dividendAsset = BTC →
          (holderPayout cfg divisible dividendDivisible qpu o.address_quantity).ltNat cfg.dust = false)) ∧
    (dividendOutputs cfg source blockIndex divisible dividendDivisible dividendAsset qpu holders).2.2 =
      ((dividendOutputs cfg source blockIndex divisible dividendDivisible dividendAsset qpu holders).1.map
        (fun o => o.dividend_quantity)).sum := by
  induction holders with
  | nil => simp [dividendOutputs]
  | cons h rest ih =>
    by_cases h1 : blockIndex < 294500 ∧ cfg.testnet = false ∧ h.escrow
    · simpa [dividendOutputs, h1] using ih
    · by_cases h2 : (blockIndex ≥ 296000 ∨ cfg.testnet) ∧ h.address = source
      · simpa [dividendOutputs, h1, h2] using ih
      · by_cases h3 : dividendAsset = BTC ∧
            (holderPayout cfg divisible dividendDivisible qpu h.address_quantity).ltNat cfg.dust
        · simpa [dividendOutputs, h1, h2, h3] using ih
        · refine ⟨?_, ?_⟩
          · intro o ho
            simp only [dividendOutputs, if_neg h1, if_neg h2, if_neg h3, List.mem_cons] at ho
            rcases ho with ho | ho
            · subst ho
              refine ⟨rfl, ?_⟩
              intro hBTC
              rcases Bool.eq_false_or_eq_true
                  ((holderPayout cfg divisible dividendDivisible qpu h.address_quantity).ltNat cfg.dust) with
                hv | hv
              · exact absurd ⟨hBTC, hv⟩ h3
              · exact hv
            · exact ih.1 o ho
          · simp only [dividendOutputs, if_neg h1, if_neg h2, if_neg h3, List.map_cons, List.sum_cons]
            exact congrArg _ ih.2

/-- Lines 117-121: the base-currency and fee-asset checks on the held asset.
The XCP-holders problem fires when the height is *outside* [317500, 320000)
on the production network, and always on the test network. -/
def btcXcpChecks (cfg : Config) (asset : String) (blockIndex : ℤ) : List String :=
  (if asset = BTC then [cannotPayMsg BTC] else []) ++
  (if asset = XCP ∧ (¬ blockIndex ≥ 317500 ∨ blockIndex ≥ 320000 ∨ cfg.testnet) then
    [cannotPayMsg XCP] else [])

/-- Lines 123-128: positivity and storage-overflow checks on
`quantity_per_unit`. -/
def qpuChecks (cfg : Config) (qpu : ℤ) : List String :=
  (if qpu ≤ 0 then [nonPositiveMsg] else []) ++
  (if qpu > cfg.maxInt then [overflowMsg] else [])

/-- Lines 131-143: the activation checks.  `activation` is compared with the
current block height directly (`activation <= block_index`,
`activation - block_index < 144`), i.e. it is treated as an absolute block
height.  The `isinstance(activation, int)` branch is vacuous here because the
modelled value is always an integer. -/
def activationChecks (cfg : Config) (blockIndex : ℤ) : Option ℤ → List String
  | none => []
  | some a =>
    if cfg.scheduledEnabled then
      (if a < 0 then [negativeActivationMsg] else []) ++
      (if a ≤ blockIndex then [futureMsg] else []) ++
      (if a - blockIndex < 144 then [lead144Msg] else []) ++
      (if a > cfg.maxActivation then [activationOverflowMsg] else [])
    else [schedDisabledMsg]

/-- The tuple returned by `validate`:
`(dividend_total, outputs, problems, fee)`, with `none` standing for the
Python `None` of the early returns. -/
structure ValidateResult where
  dividendTotal : Option ℤ
  outputs : Option (List Output)
  problems : List String
  fee : ℤ
deriving DecidableEq, Repr

/-- Python `not dividend_balances or dividend_balances[0].quantity < x`. -/
def balanceBelow (ob : Option ℤ) (x : ℤ) : Bool :=
  match ob with
  | none => true
  | some b => decide (b < x)

/-- Lines 214-232: zero-dividend check, payout balance check, fee computation
and fee balance check.  Returns the accumulated problems and the fee.  The
fee constants are the exact values of `int(0.02 * config.UNIT)` and
`int(0.0002 * config.UNIT * holder_count)` at `UNIT = 10^8`. -/
def tailPre (cfg : Config) (L : Ledger) (source dividendAsset : String)
    (blockIndex : ℤ) (activation : Option ℤ) (problems : List String)
    (dividendTotal : ℤ) (addresses : List String) : List String × ℤ :=
  let problems := if dividendTotal = 0 then problems ++ [zeroDividendMsg] else problems
  let problems :=
    if dividendAsset ≠ BTC ∧ balanceBelow (L.balance source dividendAsset) dividendTotal then
      problems ++ [insufficientMsg dividendAsset]
    else problems
  let fee : ℤ :=
    if problems = [] ∧ dividendAsset ≠ BTC then
      if blockIndex ≥ 330000 ∨ cfg.testnet then
        if activation.isSome then 2000000 else 20000 * (addresses.dedup.length : ℤ)
      else 0
    else 0
  let problems :=
    if problems = [] ∧ dividendAsset ≠ BTC ∧ fee ≠ 0 ∧ balanceBelow (L.balance source XCP) fee then
      problems ++ [insufficientMsg XCP]
    else problems
  (problems, fee)

/-- Lines 214-244: the tail of `validate` after the payout computation:
the `tailPre` stages, then the combined payout+fee check when the dividend
asset is XCP, then the final storage-overflow check. -/
def validateTail (cfg : Config) (L : Ledger) (source dividendAsset : String)
    (blockIndex : ℤ) (activation : Option ℤ) (problems : List String)
    (dividendTotal : ℤ) (outputs : List Output) (addresses : List String) :
    ValidateResult :=
  let pf := tailPre cfg L source dividendAsset blockIndex activation problems dividendTotal
    addresses
  let problems := pf.1
  let fee := pf.2
  let problems :=
    if problems = [] ∧ dividendAsset = XCP ∧
        balanceBelow (L.balance source dividendAsset) (dividendTotal + fee) then
      problems ++ [insufficientMsg dividendAsset]
    else problems
  let problems :=
    if fee > cfg.maxInt ∨ dividendTotal > cfg.maxInt then problems ++ [overflowMsg] else problems
  ⟨some dividendTotal, some outputs, problems, fee⟩

/-- Lines 177-212: the payout computation.  With an activation the total is
computed from the summed issuance quantity; the stray `continue` at line 190
is a syntax error in context and is modelled as a crash of the call when its
condition holds.  Without an activation the holder loop runs. -/
def validatePayout (cfg : Config) (L : Ledger) (source : String) (qpu : ℤ)
    (asset dividendAsset : String) (blockIndex : ℤ) (activation : Option ℤ)
    (problems : List String) (divisible dividendDivisible : Bool) :
    Except PyError ValidateResult :=
  match activation with
  | some _ =>
    let assetIssuance : ℤ := (((L.issuancesOf asset).map (fun i => i.quantity)).sum)
    let q := holderPayout cfg divisible dividendDivisible qpu assetIssuance
    if dividendAsset = BTC ∧ q.ltNat cfg.dust then
      .error .strayContinue
    else
      .ok (validateTail cfg L source dividendAsset blockIndex activation problems q.trunc [] [])
  | none =>
    let r := dividendOutputs cfg source blockIndex divisible dividendDivisible dividendAsset qpu
      (L.holdersOf asset)
    .ok (validateTail cfg L source dividendAsset blockIndex activation problems r.2.2 r.1 r.2.1)

/-- Lines 153-155: only the issuer of the held asset may pay dividends,
enforced from height 320000 (and always on testnet). -/
def issuerCheck (cfg : Config) (source : String) (blockIndex : ℤ) (lastI : Issuance) :
    List String :=
  if (blockIndex ≥ 320000 ∨ cfg.testnet) ∧ lastI.issuer ≠ source then [onlyIssuerMsg] else []

/-- Lines 158-160 and 173-175: the locked requirement applied to the last
issuance row of whatever list the `issuances` variable currently holds. -/
def lockedCheck (activation : Option ℤ) (lastI : Issuance) : List String :=
  if activation.isSome ∧ lastI.locked = false then [lockedMsg] else []

/-- Lines 150-175: issuer check, the first locked check, the dividend-asset
examination (with its early return), and the second locked check.  When the
dividend asset is BTC or XCP the `issuances` variable still holds the held
asset's issuances, so the second locked check re-reads the held asset's last
issuance. -/
def validateWithAsset (cfg : Config) (L : Ledger) (source : String) (qpu : ℤ)
    (asset dividendAsset : String) (blockIndex : ℤ) (activation : Option ℤ)
    (problems : List String) (first : Issuance) (restI : List Issuance) :
    Except PyError ValidateResult :=
  let divisible := first.divisible
  let lastI := (first :: restI).getLastD first
  let problems := problems ++ issuerCheck cfg source blockIndex lastI
  let problems := problems ++ lockedCheck activation lastI
  if dividendAsset = BTC ∨ dividendAsset = XCP then
    let problems := problems ++ lockedCheck activation lastI
    validatePayout cfg L source qpu asset dividendAsset blockIndex activation problems divisible true
  else
    match L.issuancesOf dividendAsset with
    | [] => .ok ⟨none, none, problems ++ [noSuchDividendAssetMsg dividendAsset], 0⟩
    | dFirst :: dRest =>
      let dLast := (dFirst :: dRest).getLastD dFirst
      let problems := problems ++ lockedCheck activation dLast
      validatePayout cfg L source qpu asset dividendAsset blockIndex activation problems divisible
        dFirst.divisible

/-- Lines 113-244: `validate(db, source, quantity_per_unit, asset,
dividend_asset, block_index, activation)`. -/
def validate (cfg : Config) (L : Ledger) (source : String) (qpu : ℤ)
    (asset dividendAsset : String) (blockIndex : ℤ) (activation : Option ℤ) :
    Except PyError ValidateResult :=
  let problems := btcXcpChecks cfg asset blockIndex ++ qpuChecks cfg qpu ++
    activationChecks cfg blockIndex activation
  match L.issuancesOf asset with
  | [] => .ok ⟨none, none, problems ++ [noSuchAssetMsg asset], 0⟩
  | first :: restI =>
    validateWithAsset cfg L source qpu asset dividendAsset blockIndex activation problems first restI

/- Helper lemmas about membership in the conditional singleton lists used to
accumulate problems, and about the problem strings being pairwise distinct. -/

theorem mem_ite_singleton {c : Prop} [Decidable c] {s t : String} :
    s ∈ (if c then [t] else ([] : List String)) ↔ c ∧ s = t := by
  split <;> simp_all

theorem head?_append_left (p q : String) (c : Char) (h : p.data.head? = some c) :
    (p ++ q).data.head? = some c := by
  rw [String.data_append]
  cases hp : p.data with
  | nil => rw [hp] at h; cases h
  | cons x t =>
    rw [hp] at h
    cases h
    rfl

/-- Two strings with distinct leading characters differ. -/
theorem string_ne_of_head (p q : String) (c d : Char)
    (hp : p.data.head? = some c) (hq : q.data.head? = some d) (hcd : c ≠ d) : p ≠ q := by
  intro h
  rw [h, hq] at hp
  exact hcd (Option.some.inj hp.symm)

theorem noSuchAssetMsg_ne_cannotPay (a s : String) : noSuchAssetMsg a ≠ cannotPayMsg s := by
  refine string_ne_of_head _ _ 'n' 'c' ?_ ?_ (by decide)
  · exact head?_append_left _ _ _ (head?_append_left "no such asset, " _ _ (by decide))
  · exact head?_append_left "cannot pay dividends to holders of " _ _ (by decide)

theorem noSuchDividendAssetMsg_ne_cannotPay (a s : String) :
    noSuchDividendAssetMsg a ≠ cannotPayMsg s := by
  refine string_ne_of_head _ _ 'n' 'c' ?_ ?_ (by decide)
  · exact head?_append_left _ _ _ (head?_append_left "no such dividend asset, " _ _ (by decide))
  · exact head?_append_left "cannot pay dividends to holders of " _ _ (by decide)

theorem insufficientMsg_ne_cannotPay (a s : String) : insufficientMsg a ≠ cannotPayMsg s := by
  refine string_ne_of_head _ _ 'i' 'c' ?_ ?_ (by decide)
  · exact head?_append_left _ _ _ (head?_append_left "insufficient funds (" _ _ (by decide))
  · exact head?_append_left "cannot pay dividends to holders of " _ _ (by decide)

/- Membership characterizations of the three leading check stages. -/

theorem mem_btcXcpChecks {s : String} {cfg : Config} {asset : String} {blk : ℤ} :
    s ∈ btcXcpChecks cfg asset blk ↔
      (asset = BTC ∧ s = cannotPayMsg BTC) ∨
      ((asset = XCP ∧ (¬ blk ≥ 317500 ∨ blk ≥ 320000 ∨ cfg.testnet)) ∧ s = cannotPayMsg XCP) := by
  unfold btcXcpChecks
  simp [mem_ite_singleton, List.mem_append]

theorem mem_qpuChecks {s : String} {cfg : Config} {qpu : ℤ} :
    s ∈ qpuChecks cfg qpu ↔
      (qpu ≤ 0 ∧ s = nonPositiveMsg) ∨ (qpu > cfg.maxInt ∧ s = overflowMsg) := by
  unfold qpuChecks
  simp [mem_ite_singleton, List.mem_append]

theorem mem_activationChecks_some {s : String} {cfg : Config} {blk a : ℤ}
    (hEn : cfg.scheduledEnabled = true) :
    s ∈ activationChecks cfg blk (some a) ↔
      (a < 0 ∧ s = negativeActivationMsg) ∨ (a ≤ blk ∧ s = futureMsg) ∨
      (a - blk < 144 ∧ s = lead144Msg) ∨ (a > cfg.maxActivation ∧ s = activationOverflowMsg) := by
  unfold activationChecks
  simp [hEn, mem_ite_singleton, List.mem_append, or_assoc]

/- Membership transparency of the validation pipeline for a string that none
of the later stages can append: such a string ends up in the final problem
list exactly when it was in the accumulated problems before those stages. -/

theorem mem_append_ite_singleton {s x : String} {P : List String} {c : Prop} [Decidable c]
    (hx : s ≠ x) : s ∈ (if c then P ++ [x] else P) ↔ s ∈ P := by
  split <;> simp [hx, List.mem_append]

theorem validateTail_mem_iff {cfg : Config} {L : Ledger} {source dividendAsset : String}
    {blk : ℤ} {act : Option ℤ} {P : List String} {t : ℤ} {outs : List Output}
    {addrs : List String} {s : String}
    (h5 : s ≠ zeroDividendMsg) (h6 : s ≠ insufficientMsg dividendAsset)
    (h7 : s ≠ insufficientMsg XCP) (h8 : s ≠ overflowMsg) :
    s ∈ (validateTail cfg L source dividendAsset blk act P t outs addrs).problems ↔ s ∈ P := by
  simp only [validateTail, tailPre]
  rw [mem_append_ite_singleton h8, mem_append_ite_singleton h6, mem_append_ite_singleton h7,
    mem_append_ite_singleton h6, mem_append_ite_singleton h5]

theorem validatePayout_ok_mem_iff {cfg : Config} {L : Ledger} {source : String} {qpu : ℤ}
    {asset dividendAsset : String} {blk : ℤ} {act : Option ℤ} {P : List String}
    {divisible dividendDivisible : Bool} {r : ValidateResult} {s : String}
    (hok : validatePayout cfg L source qpu asset dividendAsset blk act P divisible
      dividendDivisible = .ok r)
    (h5 : s ≠ zeroDividendMsg) (h6 : s ≠ insufficientMsg dividendAsset)
    (h7 : s ≠ insufficientMsg XCP) (h8 : s ≠ overflowMsg) :
    s ∈ r.problems ↔ s ∈ P := by
  unfold validatePayout at hok
  cases act with
  | none =>
    cases hok
    exact validateTail_mem_iff h5 h6 h7 h8
  | some a =>
    by_cases hc : dividendAsset = BTC ∧
        (holderPayout cfg divisible dividendDivisible qpu
          (((L.issuancesOf asset).map (fun i => i.quantity)).sum)).ltNat cfg.dust
    · rw [if_pos hc] at hok
      cases hok
    · rw [if_neg hc] at hok
      cases hok
      exact validateTail_mem_iff h5 h6 h7 h8

theorem validateWithAsset_ok_mem_iff {cfg : Config} {L : Ledger} {source : String} {qpu : ℤ}
    {asset dividendAsset : String} {blk : ℤ} {act : Option ℤ} {P : List String}
    {first : Issuance} {restI : List Issuance} {r : ValidateResult} {s : String}
    (hok : validateWithAsset cfg L source qpu asset dividendAsset blk act P first restI = .ok r)
    (h2 : s ≠ onlyIssuerMsg) (h3 : s ≠ lockedMsg) (h4 : s ≠ noSuchDividendAssetMsg dividendAsset)
    (h5 : s ≠ zeroDividendMsg) (h6 : s ≠ insufficientMsg dividendAsset)
    (h7 : s ≠ insufficientMsg XCP) (h8 : s ≠ overflowMsg) :
    s ∈ r.problems ↔ s ∈ P := by
  unfold validateWithAsset at hok
  by_cases hd : dividendAsset = BTC ∨ dividendAsset = XCP
  · rw [if_pos hd] at hok
    rw [validatePayout_ok_mem_iff hok h5 h6 h7 h8]
    simp [List.mem_append, mem_ite_singleton, issuerCheck, lockedCheck, h2, h3]
  · rw [if_neg hd] at hok
    cases hD : L.issuancesOf dividendAsset with
    | nil =>
      rw [hD] at hok
      cases hok
      simp [List.mem_append, mem_ite_singleton, issuerCheck, lockedCheck, h2, h3, h4]
    | cons dFirst dRest =>
      rw [hD] at hok
      rw [validatePayout_ok_mem_iff hok h5 h6 h7 h8]
      simp [List.mem_append, mem_ite_singleton, issuerCheck, lockedCheck, h2, h3]

theorem validate_ok_mem_iff {cfg : Config} {L : Ledger} {source : String} {qpu : ℤ}
    {asset dividendAsset : String} {blk : ℤ} {act : Option ℤ} {r : ValidateResult} {s : String}
    (hok : validate cfg L source qpu asset dividendAsset blk act = .ok r)
    (h1 : s ≠ noSuchAssetMsg asset) (h2 : s ≠ onlyIssuerMsg) (h3 : s ≠ lockedMsg)
    (h4 : s ≠ noSuchDividendAssetMsg dividendAsset) (h5 : s ≠ zeroDividendMsg)
    (h6 : s ≠ insufficientMsg dividendAsset) (h7 : s ≠ insufficientMsg XCP)
    (h8 : s ≠ overflowMsg) :
    s ∈ r.problems ↔
      s ∈ btcXcpChecks cfg asset blk ++ qpuChecks cfg qpu ++ activationChecks cfg blk act := by
  unfold validate at hok
  cases hI : L.issuancesOf asset with
  | nil =>
    rw [hI] at hok
    cases hok
    simp [List.mem_append, h1]
  | cons first restI =>
    rw [hI] at hok
    rw [validateWithAsset_ok_mem_iff hok h2 h3 h4 h5 h6 h7 h8]

/-- A mainnet configuration with the documented constants
(`UNIT = 10^8`, `MAX_INT = 2^63 - 1`, dust threshold 7800) and the
scheduled-dividend feature enabled. -/
def defCfg : Config := ⟨false, 100000000, 9223372036854775807, 7800, 9223372036854775807, true⟩

/-- The same configuration on the test network. -/
def testnetCfg : Config := ⟨true, 100000000, 9223372036854775807, 7800, 9223372036854775807, true⟩

/-- A small concrete ledger: asset GOLD issued (divisible, locked) by SRC with
one holder H1, and a single XCP balance row for SRC holding `b`. -/
def testLedger (b : ℤ) : Ledger where
  issuancesOf a := if a = "GOLD" then [⟨"SRC", true, true, 100000000⟩] else []
  holdersOf a := if a = "GOLD" then [⟨"H1", 100000000, false⟩] else []
  balance a b2 := if a = "SRC" ∧ b2 = XCP then some b else none
  assetName n := if n = 42 then some "GOLD" else if n = 1 then some XCP else none
  assetId a := if a = "GOLD" then some 42 else if a = XCP then some 1 else none
  resolveSubasset a := a

/-- C3 counterexample: at block height 1000 an activation value of 200 (the
claim's "delta of 200") does *not* pass the activation checks: the code
compares the activation with the block height as an absolute height and
rejects it as a non-future block. -/
theorem activation_delta_200_rejected :
    futureMsg ∈ activationChecks defCfg 1000 (some 200) ∧
    lead144Msg ∈ activationChecks defCfg 1000 (some 200) := by decide

/-- C3 amended: the `activation` argument is an absolute activation block
height, not a delta.  With the feature enabled, validation rejects a negative
activation, an activation at or below the current height, an activation less
than 144 blocks above the current height, and an activation above
`MAX_ACTIVATION`; at block height 1000 an activation height of 1200
(a 200-block lead) passes all activation checks, while 1050 (a 50-block lead)
is rejected with the minimum-lead problem string. -/
theorem activation_checks_absolute (cfg : Config) (a blk : ℤ)
    (hEn : cfg.scheduledEnabled = true) :
    (negativeActivationMsg ∈ activationChecks cfg blk (some a) ↔ a < 0) ∧
    (futureMsg ∈ activationChecks cfg blk (some a) ↔ a ≤ blk) ∧
    (lead144Msg ∈ activationChecks cfg blk (some a) ↔ a - blk < 144) ∧
    (activationOverflowMsg ∈ activationChecks cfg blk (some a) ↔ a > cfg.maxActivation) ∧
    ((1200 : ℤ) ≤ cfg.maxActivation → activationChecks cfg 1000 (some 1200) = []) ∧
    lead144Msg ∈ activationChecks cfg 1000 (some 1050) := by
  refine ⟨?_, ?_, ?_, ?_, ?_, ?_⟩
  · rw [mem_activationChecks_some hEn]
    constructor
    · rintro (⟨h, he⟩ | ⟨h, he⟩ | ⟨h, he⟩ | ⟨h, he⟩) <;>
        first
        | exact h
        | exact absurd he (by decide)
    · intro h
      exact Or.inl ⟨h, rfl⟩
  · rw [mem_activationChecks_some hEn]
    constructor
    · rintro (⟨h, he⟩ | ⟨h, he⟩ | ⟨h, he⟩ | ⟨h, he⟩) <;>
        first
        | exact h
        | exact absurd he (by decide)
    · intro h
      exact Or.inr (Or.inl ⟨h, rfl⟩)
  · rw [mem_activationChecks_some hEn]
    constructor
    · rintro (⟨h, he⟩ | ⟨h, he⟩ | ⟨h, he⟩ | ⟨h, he⟩) <;>
        first
        | exact h
        | exact absurd he (by decide)
    · intro h
      exact Or.inr (Or.inr (Or.inl ⟨h, rfl⟩))
  · rw [mem_activationChecks_some hEn]
    constructor
    · rintro (⟨h, he⟩ | ⟨h, he⟩ | ⟨h, he⟩ | ⟨h, he⟩) <;>
        first
        | exact h
        | exact absurd he (by decide)
    · intro h
      exact Or.inr (Or.inr (Or.inr ⟨h, rfl⟩))
  · intro h
    simp only [activationChecks, hEn, if_true]
    rw [if_neg (by omega), if_neg (by omega), if_neg (by omega), if_neg (by omega)]
    rfl
  · rw [mem_activationChecks_some hEn]
    exact Or.inr (Or.inr (Or.inl ⟨by omega, rfl⟩))

/-- Witness for `activation_checks_absolute` at the default configuration. -/
theorem activation_checks_absolute_witness :
    defCfg.scheduledEnabled = true ∧
    ((1200 : ℤ) ≤ defCfg.maxActivation → activationChecks defCfg 1000 (some 1200) = []) ∧
    lead144Msg ∈ activationChecks defCfg 1000 (some 1050) :=
  ⟨by decide, (activation_checks_absolute defCfg 1200 1000 (by decide)).2.2.2.2.1,
    (activation_checks_absolute defCfg 1200 1000 (by decide)).2.2.2.2.2⟩

/-- The activation checks can never produce the XCP-holders problem string. -/
theorem cannotPayXcp_not_mem_activation (cfg : Config) (blk : ℤ) (act : Option ℤ) :
    cannotPayMsg XCP ∉ activationChecks cfg blk act := by
  cases act with
  | none => simp [activationChecks]
  | some a =>
    intro hmem
    simp only [activationChecks] at hmem
    by_cases hEn : cfg.scheduledEnabled = true
    · rw [if_pos hEn] at hmem
      simp only [List.mem_append, mem_ite_singleton] at hmem
      rcases hmem with (((⟨_, he⟩ | ⟨_, he⟩) | ⟨_, he⟩) | ⟨_, he⟩) <;> exact absurd he (by decide)
    · rw [if_neg hEn] at hmem
      simp only [List.mem_singleton] at hmem
      exact absurd hmem (by decide)

/-- C5 counterexample: the XCP-holders problem is raised at production height
100, which is *outside* the historical window, and it is also raised on the
test network inside the window — the opposite of the claim. -/
theorem xcp_window_counterexample :
    validate defCfg (testLedger 0) "SRC" 1 XCP XCP 100 none =
      .ok ⟨none, none, [cannotPayMsg XCP, noSuchAssetMsg XCP], 0⟩ ∧
    validate testnetCfg (testLedger 0) "SRC" 1 XCP XCP 318000 none =
      .ok ⟨none, none, [cannotPayMsg XCP, noSuchAssetMsg XCP], 0⟩ := by decide

/-- C5 amended: for every `validate` call that returns, the XCP-holders
problem is in the returned problem list exactly when the held asset is XCP
and the height is outside [317500, 320000) on the production network, or the
network is the test network (where it is always raised). -/
theorem xcp_window_exact (cfg : Config) (L : Ledger) (source : String) (qpu : ℤ)
    (asset dividendAsset : String) (blk : ℤ) (act : Option ℤ) (r : ValidateResult)
    (hok : validate cfg L source qpu asset dividendAsset blk act = .ok r) :
    cannotPayMsg XCP ∈ r.problems ↔
      asset = XCP ∧ (¬ blk ≥ 317500 ∨ blk ≥ 320000 ∨ cfg.testnet = true) := by
  rw [validate_ok_mem_iff hok (Ne.symm (noSuchAssetMsg_ne_cannotPay asset XCP)) (by decide)
    (by decide) (Ne.symm (noSuchDividendAssetMsg_ne_cannotPay dividendAsset XCP)) (by decide)
    (Ne.symm (insufficientMsg_ne_cannotPay dividendAsset XCP))
    (Ne.symm (insufficientMsg_ne_cannotPay XCP XCP)) (by decide)]
  simp only [List.mem_append, mem_btcXcpChecks, mem_qpuChecks]
  constructor
  · rintro (((⟨_, he⟩ | ⟨⟨hA, hw⟩, _⟩) | (⟨_, he⟩ | ⟨_, he⟩)) | hmem)
    · exact absurd he (by decide)
    · exact ⟨hA, hw⟩
    · exact absurd he (by decide)
    · exact absurd he (by decide)
    · exact absurd hmem (cannotPayXcp_not_mem_activation cfg blk act)
  · rintro ⟨hA, hw⟩
    exact Or.inl (Or.inl (Or.inr ⟨⟨hA, hw⟩, trivial⟩))

/-- Witness for `xcp_window_exact` at a concrete call. -/
theorem xcp_window_exact_witness :
    cannotPayMsg XCP ∈
        (⟨none, none, [cannotPayMsg XCP, noSuchAssetMsg XCP], 0⟩ : ValidateResult).problems ↔
      XCP = XCP ∧ (¬ (100 : ℤ) ≥ 317500 ∨ (100 : ℤ) ≥ 320000 ∨ defCfg.testnet = true) :=
  xcp_window_exact defCfg (testLedger 0) "SRC" 1 XCP XCP 100 none
    ⟨none, none, [cannotPayMsg XCP, noSuchAssetMsg XCP], 0⟩ (by decide)

theorem append_ite_singleton (P : List String) (c : Prop) [Decidable c] (x : String) :
    (if c then P ++ [x] else P) = P ++ (if c then [x] else []) := by
  split <;> simp

/-- Line 146-149: when the held asset has no valid issuance, `validate`
returns early. -/
theorem validate_eq_noAsset (cfg : Config) (L : Ledger) (source : String) (qpu : ℤ)
    (asset dividendAsset : String) (blk : ℤ) (act : Option ℤ)
    (hI : L.issuancesOf asset = []) :
    validate cfg L source qpu asset dividendAsset blk act =
      .ok ⟨none, none,
        btcXcpChecks cfg asset blk ++ qpuChecks cfg qpu ++ activationChecks cfg blk act ++
          [noSuchAssetMsg asset], 0⟩ := by
  unfold validate
  rw [hI]

/-- When the held asset has issuances, `validate` continues with
`validateWithAsset`. -/
theorem validate_eq_withAsset (cfg : Config) (L : Ledger) (source : String) (qpu : ℤ)
    (asset dividendAsset : String) (blk : ℤ) (act : Option ℤ) (first : Issuance)
    (restI : List Issuance) (hI : L.issuancesOf asset = first :: restI) :
    validate cfg L source qpu asset dividendAsset blk act =
      validateWithAsset cfg L source qpu asset dividendAsset blk act
        (btcXcpChecks cfg asset blk ++ qpuChecks cfg qpu ++ activationChecks cfg blk act)
        first restI := by
  unfold validate
  rw [hI]

/-- With dividend asset XCP, `validateWithAsset` runs `validatePayout` with
the held asset's divisibility, dividend divisibility `true`, and the locked
check applied twice to the held asset's last issuance. -/
theorem validateWithAsset_xcp_eq (cfg : Config) (L : Ledger) (source : String) (qpu : ℤ)
    (asset : String) (blk : ℤ) (act : Option ℤ) (P : List String) (first : Issuance)
    (restI : List Issuance) :
    validateWithAsset cfg L source qpu asset XCP blk act P first restI =
      validatePayout cfg L source qpu asset XCP blk act
        (P ++ issuerCheck cfg source blk ((first :: restI).getLastD first) ++
          lockedCheck act ((first :: restI).getLastD first) ++
          lockedCheck act ((first :: restI).getLastD first))
        first.divisible true := by
  unfold validateWithAsset
  rw [if_pos (Or.inr rfl)]

/-- With the dividend asset XCP and a known XCP balance row, `validateTail`
is the `tailPre` stages followed by exactly the combined payout+fee check and
the overflow check. -/
theorem validateTail_xcp_shape (cfg : Config) (L : Ledger) (source : String) (blk : ℤ)
    (act : Option ℤ) (P : List String) (t : ℤ) (outs : List Output) (addrs : List String)
    (b : ℤ) (hb : L.balance source XCP = some b) :
    validateTail cfg L source XCP blk act P t outs addrs =
      ⟨some t, some outs,
        ((tailPre cfg L source XCP blk act P t addrs).1 ++
          (if (tailPre cfg L source XCP blk act P t addrs).1 = [] ∧
              b < t + (tailPre cfg L source XCP blk act P t addrs).2 then
            [insufficientMsg XCP] else [])) ++
          (if (tailPre cfg L source XCP blk act P t addrs).2 > cfg.maxInt ∨ t > cfg.maxInt then
            [overflowMsg] else []),
        (tailPre cfg L source XCP blk act P t addrs).2⟩ := by
  have hc : ∀ (c d : Prop), ∀ i1 : Decidable c, ∀ i2 : Decidable d, (c ↔ d) →
      (if c then [insufficientMsg XCP] else []) = (if d then [insufficientMsg XCP] else []) := by
    intro c d i1 i2 hcd
    exact if_congr hcd rfl rfl
  simp only [validateTail]
  rw [append_ite_singleton, append_ite_singleton]
  refine congrArg (fun pr => ValidateResult.mk (some t) (some outs)
    (((tailPre cfg L source XCP blk act P t addrs).1 ++ pr) ++
      (if (tailPre cfg L source XCP blk act P t addrs).2 > cfg.maxInt ∨ t > cfg.maxInt then
        [overflowMsg] else []))
    (tailPre cfg L source XCP blk act P t addrs).2) ?_
  refine hc _ _ _ _ ?_
  rw [hb]
  simp [balanceBelow]

/-- Every `validate` run with dividend asset XCP that reports a total is a
run of `validateTail` at XCP. -/
theorem validate_xcp_to_tail (cfg : Config) (L : Ledger) (source : String) (qpu : ℤ)
    (asset : String) (blk : ℤ) (act : Option ℤ) (r : ValidateResult) (t : ℤ)
    (hok : validate cfg L source qpu asset XCP blk act = .ok r)
    (ht : r.dividendTotal = some t) :
    ∃ P outs addrs, r = validateTail cfg L source XCP blk act P t outs addrs := by
  cases hI : L.issuancesOf asset with
  | nil =>
    rw [validate_eq_noAsset cfg L source qpu asset XCP blk act hI] at hok
    cases hok
    simp at ht
  | cons first restI =>
    rw [validate_eq_withAsset cfg L source qpu asset XCP blk act first restI hI,
      validateWithAsset_xcp_eq] at hok
    unfold validatePayout at hok
    cases act with
    | none =>
      cases hok
      have h2 : (dividendOutputs cfg source blk first.divisible true XCP qpu
          (L.holdersOf asset)).2.2 = t := Option.some.inj ht
      rw [← h2]
      exact ⟨_, _, _, rfl⟩
    | some a =>
      rw [if_neg (fun hcc => absurd hcc.1 (by decide))] at hok
      cases hok
      have h2 : (holderPayout cfg first.divisible true qpu
          (((L.issuancesOf asset).map (fun i => i.quantity)).sum)).trunc = t :=
        Option.some.inj ht
      rw [← h2]
      exact ⟨_, _, _, rfl⟩

/-- C9: when the dividend asset is XCP and the source has an XCP balance `b`,
the final problem list is exactly the problems accumulated by the earlier
stages, followed by the combined payout+fee insufficiency problem — appended
exactly when no earlier problem was found and `b < total + fee` — followed by
the overflow check; and the payout-only check is also present (a balance
below the total alone already yields the insufficiency problem).  Concretely,
with total 500 and fee 20000, a balance of exactly 20500 validates with no
problems while a balance of 20499 fails with only the combined-insufficiency
problem. -/
theorem validate_xcp_combined (cfg : Config) (L : Ledger) (source : String) (qpu : ℤ)
    (asset : String) (blk : ℤ) (act : Option ℤ) (r : ValidateResult) (t b : ℤ)
    (hok : validate cfg L source qpu asset XCP blk act = .ok r)
    (ht : r.dividendTotal = some t)
    (hb : L.balance source XCP = some b) :
    (∃ pre,
      r.problems =
        (pre ++ (if pre = [] ∧ b < t + r.fee then [insufficientMsg XCP] else [])) ++
          (if r.fee > cfg.maxInt ∨ t > cfg.maxInt then [overflowMsg] else []) ∧
      (b < t → insufficientMsg XCP ∈ pre)) ∧
    validate defCfg (testLedger 20500) "SRC" 500 "GOLD" XCP 350000 none =
      .ok ⟨some 500, some [⟨"H1", 100000000, 500⟩], [], 20000⟩ ∧
    validate defCfg (testLedger 20499) "SRC" 500 "GOLD" XCP 350000 none =
      .ok ⟨some 500, some [⟨"H1", 100000000, 500⟩], [insufficientMsg XCP], 20000⟩ := by
  refine ⟨?_, by decide, by decide⟩
  obtain ⟨P, outs, addrs, hr⟩ := validate_xcp_to_tail cfg L source qpu asset blk act r t hok ht
  refine ⟨(tailPre cfg L source XCP blk act P t addrs).1, ?_, ?_⟩
  · rw [hr, validateTail_xcp_shape cfg L source blk act P t outs addrs b hb]
  · intro hbt
    simp only [tailPre]
    rw [hb]
    have h2 : (if XCP ≠ BTC ∧ balanceBelow (some b) t = true then
        (if t = 0 then P ++ [zeroDividendMsg] else P) ++ [insufficientMsg XCP]
      else if t = 0 then P ++ [zeroDividendMsg] else P) =
        (if t = 0 then P ++ [zeroDividendMsg] else P) ++ [insufficientMsg XCP] :=
      if_pos ⟨(by decide : XCP ≠ BTC), decide_eq_true hbt⟩
    rw [h2]
    split <;> simp [List.mem_append]

/-- Modelled from the spec's words, for comparison with the code (claim C1):
the exact per-holder formula — holder balance times quantity-per-unit,
divided *exactly* by the subunit scale once per applicable adjustment, then
truncated to an integer. -/
def specHolderQuantity (unit : ℕ) (divisible dividendDivisible : Bool) (qpu bal : ℤ) : ℤ :=
  Int.tdiv (bal * qpu)
    ((unit : ℤ) ^ (((if divisible then 1 else 0) : ℕ) + (if dividendDivisible then 0 else 1)))

/-- C1 counterexample: with holder balance 10000000100000001 and
quantity-per-unit 99999999 (both storable), a divisible held asset and a
non-divisible dividend asset, the code's double-adjusted payout — binary64
arithmetic, as CPython computes `int(x / UNIT / UNIT)` — is 100000000, while
the claim's exact-division formula truncates to 99999999. -/
theorem exact_formula_counterexample :
    (dividendOutputs defCfg "SRC" 350000 true false "DIVI" 99999999
        [⟨"H", 10000000100000001, false⟩]).1 =
      [⟨"H", 10000000100000001, 100000000⟩] ∧
    specHolderQuantity defCfg.unit true false 99999999 10000000100000001 = 99999999 := by
  decide

/-- Holder list for the C1 witness: a small holder and a large holder of a
divisible asset paying a non-divisible dividend (the spec's double-adjustment
example shape). -/
def c1holders : List Holder := [⟨"H1", 5000, false⟩, ⟨"H2", 250000000, false⟩]

/-- Witness for `dividendOutputs_formula` at a concrete holder snapshot. -/
theorem dividendOutputs_formula_witness :
    (⟨"H1", 5000, 0⟩ : Output).dividend_quantity =
      (holderPayout defCfg true false 100 (⟨"H1", 5000, 0⟩ : Output).address_quantity).trunc ∧
    (dividendOutputs defCfg "SRC" 350000 true false "DIVI" 100 c1holders).2.2 =
      ((dividendOutputs defCfg "SRC" 350000 true false "DIVI" 100 c1holders).1.map
        (fun o => o.dividend_quantity)).sum :=
  ⟨((dividendOutputs_formula defCfg "SRC" 350000 true false "DIVI" 100 c1holders).1
      ⟨"H1", 5000, 0⟩ (by decide)).1,
    (dividendOutputs_formula defCfg "SRC" 350000 true false "DIVI" 100 c1holders).2⟩

/-- The validation result of the passing C9 scenario. -/
def c9res : ValidateResult := ⟨some 500, some [⟨"H1", 100000000, 500⟩], [], 20000⟩

/-- Witness for `validate_xcp_combined` at the concrete passing scenario. -/
theorem validate_xcp_combined_witness :
    (∃ pre,
      c9res.problems =
        (pre ++ (if pre = [] ∧ (20500 : ℤ) < 500 + c9res.fee then [insufficientMsg XCP]
          else [])) ++
          (if c9res.fee > defCfg.maxInt ∨ (500 : ℤ) > defCfg.maxInt then [overflowMsg] else []) ∧
      ((20500 : ℤ) < 500 → insufficientMsg XCP ∈ pre)) ∧
    validate defCfg (testLedger 20500) "SRC" 500 "GOLD" XCP 350000 none = .ok c9res :=
  ⟨(validate_xcp_combined defCfg (testLedger 20500) "SRC" 500 "GOLD" 350000 none c9res 500 20500
      (by decide) (by decide) (by decide)).1, by decide⟩

/- The wire-decoding step of `parse` (lines 264-283). -/

/-- What the try-block of `parse` can produce without an uncaught exception:
either the legacy 16-byte layout's fields, or the caught-failure state whose
status is `invalid: could not unpack`. -/
inductive DecodeResult where
  | layoutA (qpu : ℕ) (asset : String)
  | couldNotUnpack
deriving DecidableEq, Repr

/-- An unsigned 64-bit big-endian read (`struct.unpack` field). -/
def readU64 (bytes : List ℕ) : ℕ := (bytes.take 8).foldl (fun acc b => acc * 256 + b) 0

/-- The transaction row handed to `parse`. -/
structure Tx where
  txIndex : ℕ
  txHash : String
  blockIndex : ℤ
  source : String
deriving DecidableEq, Repr

/-- Lines 268-283: the decode step.  On the gated 24-byte path,
`struct.unpack(FORMAT_2)` with `FORMAT_2 = '>QQQ'` yields a 3-tuple, but the
assignment has four targets, so CPython raises `ValueError`; the except
clause catches only `UnpackError`, `AssetNameError` and `struct.error`, so
the `ValueError` escapes.  On the 16-byte path the fields decode (an
unresolvable asset id raises the caught `AssetNameError`), and any other
length raises the caught `UnpackError`. -/
def parseDecode (cfg : Config) (L : Ledger) (blockIndex : ℤ) (message : List ℕ) :
    Except PyError DecodeResult :=
  if (blockIndex > 288150 ∨ cfg.testnet) ∧ message.length = 24 then
    .error .valueError
  else if message.length = 16 then
    match L.assetName (readU64 (message.drop 8)) with
    | none => .ok .couldNotUnpack
    | some a => .ok (.layoutA (readU64 message) a)
  else
    .ok .couldNotUnpack

/-- Line 290: `quantity_per_unit = min(quantity_per_unit, config.MAX_INT)`. -/
def clampQpu (cfg : Config) (q : ℤ) : ℤ := min q cfg.maxInt

/-- Lines 264-293 of `parse`, through the `validate` call.  The guard at line
288 (`if status == 'valid' or 'pending':`) is always truthy, so the clamp at
line 290 runs on every path: on the caught-failure path `quantity_per_unit`
is `None` and `min(None, ...)` raises `TypeError`; on the 16-byte path the
clamp succeeds but the call at line 292 reads the local `activation`, which
is never assigned on that path, raising `UnboundLocalError` (the call is
itself also malformed, passing a positional argument after a keyword one).
So `validate` is never successfully invoked from `parse`. -/
def parseToValidate (cfg : Config) (L : Ledger) (tx : Tx) (message : List ℕ) :
    Except PyError ValidateResult :=
  match parseDecode cfg L tx.blockIndex message with
  | .error e => .error e
  | .ok .couldNotUnpack => .error .typeError
  | .ok (.layoutA q _asset) =>
    let _clamped := clampQpu cfg (q : ℤ)
    .error (.unboundLocal "activation")

/-- C2: evaluating the decode step.  Each 24-byte message past the layout-B
height gate (or on testnet) escapes `parse` with an uncaught `ValueError`;
other lengths decode or produce the caught `invalid: could not unpack`
state. -/
theorem parse_decode_valueError :
    parseDecode defCfg (testLedger 0) 288151 (List.replicate 24 0) = .error .valueError ∧
    parseDecode defCfg (testLedger 0) 288150 (List.replicate 24 0) = .ok .couldNotUnpack ∧
    parseDecode defCfg (testLedger 0) 288151 (List.replicate 23 0) = .ok .couldNotUnpack ∧
    parseDecode defCfg (testLedger 0) 288151
        (List.replicate 8 0 ++ (List.replicate 7 0 ++ [42])) = .ok (.layoutA 0 "GOLD") := by
  decide

/-- Mainnet configuration with the scheduled-dividend feature disabled. -/
def cfgNoSched : Config := ⟨false, 100000000, 9223372036854775807, 7800, 9223372036854775807,
  false⟩

/-- C8: the gated 24-byte (layout B) decode crashes with the uncaught
`ValueError` whether or not the scheduled-dividend feature is enabled — the
feature flag is never consulted by `parse`, and no field is decoded. -/
theorem layoutB_decode_crash :
    parseDecode defCfg (testLedger 0) 300000 (List.replicate 24 0) = .error .valueError ∧
    parseDecode cfgNoSched (testLedger 0) 300000 (List.replicate 24 0) = .error .valueError ∧
    parseDecode testnetCfg (testLedger 0) 100 (List.replicate 24 0) = .error .valueError := by
  decide

/-- C10: the clamped quantity can never trigger the validator's
quantity-per-unit overflow problem; but on the only successfully decoding
path (16 bytes) `parse` crashes before invoking `validate`, reading the
never-assigned local `activation` — even for a decoded quantity of
`2^64 - 1`, which the clamp maps to `MAX_INT`. -/
theorem parse_clamp_unreachable :
    (∀ (cfg : Config) (q : ℤ), qpuChecks cfg (clampQpu cfg q) =
      if clampQpu cfg q ≤ 0 then [nonPositiveMsg] else []) ∧
    clampQpu defCfg 18446744073709551615 = defCfg.maxInt ∧
    parseToValidate defCfg (testLedger 0) ⟨1, "h", 300000, "SRC"⟩
        (List.replicate 8 255 ++ (List.replicate 7 0 ++ [42])) =
      .error (.unboundLocal "activation") := by
  refine ⟨?_, by decide, by decide⟩
  intro cfg q
  unfold qpuChecks clampQpu
  rw [if_neg (not_lt.mpr (min_le_right q cfg.maxInt))]
  simp

/- The block-driven activation pass (lines 334-344) and `activate_dividend`
(lines 71-111). -/

/-- A row of the `dividends` table as read by `activate`. -/
structure DividendRow where
  txIndex : ℕ
  txHash : String
  source : String
  dividendAsset : String
  asset : String
  status : String
  activateIndex : ℤ
deriving DecidableEq, Repr

/-- Lines 338-340: `SELECT * FROM dividends WHERE (status = 'pending' AND
activate_index < ?)` — strictly below the current block height. -/
def activateSelect (rows : List DividendRow) (blockIndex : ℤ) : List DividendRow :=
  rows.filter (fun d => decide (d.status = "pending" ∧ d.activateIndex < blockIndex))

/-- Lines 334-344: `activate`.  After the query, the loop header
`for dividends in dividend:` evaluates the never-defined name `dividend`, so
the call raises `NameError` before processing anything, for every block. -/
def activate (rows : List DividendRow) (blockIndex : ℤ) : Except PyError Unit :=
  let _dividends := activateSelect rows blockIndex
  .error (.nameError "dividend")

/-- A pending dividend row with a given activation height. -/
def pendingRow (ai : ℤ) : DividendRow := ⟨7, "txh", "SRC", XCP, "GOLD", "pending", ai⟩

/-- C6: `activate` always raises `NameError` (the loop variables are
swapped), so no dividend is ever completed; moreover the due-selection uses
a strict comparison, so a pending dividend whose activation height equals
the current block height is not selected as due. -/
theorem activate_crashes_and_boundary :
    (∀ (rows : List DividendRow) (blk : ℤ), activate rows blk = .error (.nameError "dividend")) ∧
    activateSelect [pendingRow 100] 100 = [] ∧
    activateSelect [pendingRow 99] 100 = [pendingRow 99] :=
  ⟨fun _ _ => rfl, by decide, by decide⟩

/- The `compose` path (lines 246-262). -/

/-- A Python value passed to `struct.pack`. -/
inductive PyVal where
  | int (n : ℤ)
  | pyNone
deriving DecidableEq, Repr

/-- Model of `struct.pack` with a format of `count` unsigned 64-bit fields: the
argument count must equal the field count, every argument must be an integer
in range, and the packed payload is returned (as field values).  A mismatch
raises `struct.error`. -/
def structPackU64 (count : ℕ) (args : List PyVal) : Except PyError (List ℤ) :=
  if args.length ≠ count then .error .structMismatch
  else args.foldr (fun a acc =>
    match a, acc with
    | PyVal.int n, .ok l => if 0 ≤ n ∧ n < 18446744073709551616 then .ok (n :: l)
      else .error .structMismatch
    | _, _ => .error .structMismatch) (.ok [])

/-- What `compose` returns: a BTC dividend is an empty payload with
out-of-band outputs; otherwise the packed data payload (message-id prefix
omitted). -/
inductive ComposeResult where
  | btcPayment (source : String) (outs : List (String × ℤ))
  | packed (source : String) (fields : List ℤ)
deriving DecidableEq, Repr

/-- Lines 246-262: `compose`.  It validates (without the activation), then
for a non-BTC dividend packs `FORMAT_2 = '>QQQ'` (three fields) with *four*
arguments — `quantity_per_unit, asset_id, dividend_asset_id, activation` —
so `struct.pack` raises `struct.error` on every non-BTC compose. -/
def compose (cfg : Config) (L : Ledger) (source : String) (qpu : ℤ)
    (asset dividendAsset : String) (blockIndex : ℤ) (activation : Option ℤ) :
    Except PyError ComposeResult :=
  let asset2 := L.resolveSubasset asset
  let dividendAsset2 := L.resolveSubasset dividendAsset
  match validate cfg L source qpu asset2 dividendAsset2 blockIndex none with
  | .error e => .error e
  | .ok r =>
    if r.problems ≠ [] then .error (.composeFailure r.problems)
    else if dividendAsset2 = BTC then
      .ok (.btcPayment source ((r.outputs.getD []).map (fun o => (o.address, o.dividend_quantity))))
    else
      match L.assetId asset2, L.assetId dividendAsset2 with
      | some aid, some did =>
        match structPackU64 3 [PyVal.int qpu, PyVal.int (aid : ℤ), PyVal.int (did : ℤ),
            (match activation with | some a => PyVal.int a | none => PyVal.pyNone)] with
        | .error e => .error e
        | .ok fields => .ok (.packed source fields)
      | _, _ => .error .assetIdFailure

/-- C7: a concrete input set that validation accepts with a ledger dividend
asset, on which `compose` nevertheless fails with `struct.error` (four
arguments packed against the three-field format), both without and with an
activation — so no compose output exists to round-trip through `parse`. -/
theorem compose_pack_mismatch :
    validate defCfg (testLedger 20500) "SRC" 500 "GOLD" XCP 350000 none = .ok c9res ∧
    c9res.problems = [] ∧
    compose defCfg (testLedger 20500) "SRC" 500 "GOLD" XCP 350000 none =
      .error .structMismatch ∧
    compose defCfg (testLedger 20500) "SRC" 500 "GOLD" XCP 350000 (some 350500) =
      .error .structMismatch := by
  decide

/- The persistence decision of `parse` (lines 293 and 325-330). -/

/-- Line 293: `status = 'invalid: ' + '; '.join(problems)`; `joinSemicolon`
is `'; '.join`. -/
def joinSemicolon : List String → String
  | [] => ""
  | [p] => p
  | p :: rest => p ++ "; " ++ joinSemicolon rest

def statusOfProblems (problems : List String) : String := "invalid: " ++ joinSemicolon problems

/-- Line 325: the record is inserted iff `"integer overflow" not in status`
(Python substring containment on the status string). -/
def shouldPersist (status : String) : Bool := ! (decide (overflowMsg.data <:+: status.data))

theorem overflow_data_length : overflowMsg.data.length = 16 := by decide

/-- An occurrence of `φ` inside `a ++ b` lies inside `a`, inside `b`, or
straddles the boundary, splitting `φ` into a nonempty suffix of `a` and a
nonempty prefix of `b`. -/
theorem infix_append_split {α : Type} {φ a b : List α} (h : φ <:+: a ++ b) :
    φ <:+: a ∨ φ <:+: b ∨
      ∃ i, 0 < i ∧ i < φ.length ∧ φ.take i <:+ a ∧ φ.drop i <+: b := by
  obtain ⟨s, t, hst⟩ := h
  by_cases h2 : a.length ≤ s.length
  · right; left
    have hd := congrArg (List.drop a.length) hst
    rw [List.drop_left, List.append_assoc, List.drop_append_eq_append_drop,
      Nat.sub_eq_zero_of_le h2, List.drop_zero] at hd
    exact ⟨s.drop a.length, t, by rw [List.append_assoc]; exact hd⟩
  · have h2' : s.length < a.length := lt_of_not_ge h2
    by_cases h1 : s.length + φ.length ≤ a.length
    · left
      have ht := congrArg (List.take a.length) hst
      rw [List.take_left, List.append_assoc, List.take_append_eq_append_take,
        List.take_of_length_le (by omega), List.take_append_eq_append_take,
        List.take_of_length_le (by omega)] at ht
      exact ⟨s, List.take (a.length - s.length - φ.length) t, by
        rw [List.append_assoc]; exact ht⟩
    · right; right
      refine ⟨a.length - s.length, by omega, by omega, ?_, ?_⟩
      · have ht := congrArg (List.take a.length) hst
        rw [List.take_left, List.append_assoc, List.take_append_eq_append_take,
          List.take_of_length_le (by omega), List.take_append_eq_append_take,
          show a.length - s.length - φ.length = 0 from by omega, List.take_zero,
          List.append_nil] at ht
        exact ⟨s, ht⟩
      · have hd := congrArg (List.drop a.length) hst
        rw [List.drop_left, List.append_assoc, List.drop_append_eq_append_drop,
          List.drop_eq_nil_of_le (by omega), List.nil_append, List.drop_append_eq_append_drop,
          show a.length - s.length - φ.length = 0 from by omega, List.drop_zero] at hd
        exact ⟨t, hd⟩

theorem not_infix_append {α : Type} {φ a b : List α}
    (ha : ¬ φ <:+: a) (hb : ¬ φ <:+: b)
    (hspan : ∀ i, 0 < i → i < φ.length → ¬ (φ.take i <:+ a ∧ φ.drop i <+: b)) :
    ¬ φ <:+: a ++ b := by
  intro h
  rcases infix_append_split h with h | h | ⟨i, h0, hl, hta, htb⟩
  · exact ha h
  · exact hb h
  · exact hspan i h0 hl ⟨hta, htb⟩

theorem prefix_cons_mem {α : Type} {l m : List α} {c : α} (h : l <+: c :: m) (hne : l ≠ []) :
    c ∈ l := by
  obtain ⟨u, hu⟩ := h
  cases l with
  | nil => exact absurd rfl hne
  | cons x xs =>
    have hx : x = c := by
      have := congrArg List.head? hu
      simpa using this
    rw [hx]
    exact List.mem_cons_self _ _

theorem drop_ne_nil_of_lt {α : Type} {l : List α} {i : ℕ} (h : i < l.length) :
    l.drop i ≠ [] := by
  intro hemp
  have h2 := congrArg List.length hemp
  rw [List.length_drop] at h2
  simp at h2
  omega

/-- The overflow phrase contains a space, so it cannot occur inside a
space-free character list. -/
theorem not_infix_of_no_space {a : List Char} (hsp : ' ' ∉ a) :
    ¬ overflowMsg.data <:+: a :=
  fun h => hsp (h.subset (by decide : (' ' : Char) ∈ overflowMsg.data))

theorem noSuchAssetMsg_no_overflow {a : String} (hsp : ' ' ∉ a.data) :
    ¬ overflowMsg.data <:+: (noSuchAssetMsg a).data := by
  have hdata : (noSuchAssetMsg a).data = "no such asset, ".data ++ (a.data ++ ['.']) := by
    rw [noSuchAssetMsg, String.data_append, String.data_append, List.append_assoc]
  rw [hdata]
  refine not_infix_append (by decide) ?_ ?_
  · refine not_infix_append (not_infix_of_no_space hsp) (by decide) ?_
    intro i h0 hl hand
    have hne := drop_ne_nil_of_lt hl
    have hmem : ('.' : Char) ∈ overflowMsg.data.drop i := prefix_cons_mem hand.2 hne
    exact absurd (List.drop_subset _ _ hmem) (by decide)
  · intro i h0 hl hand
    have hdec : ∀ j, j < 16 → 0 < j →
        ¬ (overflowMsg.data.take j <:+ "no such asset, ".data) := by decide
    exact hdec i (overflow_data_length ▸ hl) h0 hand.1

theorem noSuchDividendAssetMsg_no_overflow {a : String} (hsp : ' ' ∉ a.data) :
    ¬ overflowMsg.data <:+: (noSuchDividendAssetMsg a).data := by
  have hdata : (noSuchDividendAssetMsg a).data =
      "no such dividend asset, ".data ++ (a.data ++ ['.']) := by
    rw [noSuchDividendAssetMsg, String.data_append, String.data_append, List.append_assoc]
  rw [hdata]
  refine not_infix_append (by decide) ?_ ?_
  · refine not_infix_append (not_infix_of_no_space hsp) (by decide) ?_
    intro i h0 hl hand
    have hne := drop_ne_nil_of_lt hl
    have hmem : ('.' : Char) ∈ overflowMsg.data.drop i := prefix_cons_mem hand.2 hne
    exact absurd (List.drop_subset _ _ hmem) (by decide)
  · intro i h0 hl hand
    have hdec : ∀ j, j < 16 → 0 < j →
        ¬ (overflowMsg.data.take j <:+ "no such dividend asset, ".data) := by decide
    exact hdec i (overflow_data_length ▸ hl) h0 hand.1

theorem insufficientMsg_no_overflow {a : String} (hsp : ' ' ∉ a.data) :
    ¬ overflowMsg.data <:+: (insufficientMsg a).data := by
  have hdata : (insufficientMsg a).data = "insufficient funds (".data ++ (a.data ++ [')']) := by
    rw [insufficientMsg, String.data_append, String.data_append, List.append_assoc]
  rw [hdata]
  refine not_infix_append (by decide) ?_ ?_
  · refine not_infix_append (not_infix_of_no_space hsp) (by decide) ?_
    intro i h0 hl hand
    have hne := drop_ne_nil_of_lt hl
    have hmem : (')' : Char) ∈ overflowMsg.data.drop i := prefix_cons_mem hand.2 hne
    exact absurd (List.drop_subset _ _ hmem) (by decide)
  · intro i h0 hl hand
    have hdec : ∀ j, j < 16 → 0 < j →
        ¬ (overflowMsg.data.take j <:+ "insufficient funds (".data) := by decide
    exact hdec i (overflow_data_length ▸ hl) h0 hand.1

theorem infix_join_of_mem {s : String} {ps : List String} (h : s ∈ ps) :
    s.data <:+: (joinSemicolon ps).data := by
  induction ps with
  | nil => cases h
  | cons p rest ih =>
    cases rest with
    | nil =>
      rw [List.mem_singleton.mp h]
      exact List.infix_refl _
    | cons q t =>
      rcases List.mem_cons.mp h with h | h
      · rw [h]
        show p.data <:+: ((p ++ "; ") ++ joinSemicolon (q :: t)).data
        rw [String.data_append, String.data_append, List.append_assoc]
        exact (List.prefix_append _ _).isInfix
      · show s.data <:+: ((p ++ "; ") ++ joinSemicolon (q :: t)).data
        rw [String.data_append]
        exact (ih h).trans (List.suffix_append _ _).isInfix

theorem no_overflow_join {ps : List String}
    (hall : ∀ p ∈ ps, ¬ overflowMsg.data <:+: p.data) :
    ¬ overflowMsg.data <:+: (joinSemicolon ps).data := by
  induction ps with
  | nil => decide
  | cons p rest ih =>
    cases rest with
    | nil => exact hall p (List.mem_singleton.mpr rfl)
    | cons q t =>
      have hrest : ¬ overflowMsg.data <:+: (joinSemicolon (q :: t)).data :=
        ih (fun x hx => hall x (List.mem_cons_of_mem _ hx))
      show ¬ overflowMsg.data <:+: ((p ++ "; ") ++ joinSemicolon (q :: t)).data
      rw [String.data_append, String.data_append, List.append_assoc]
      refine not_infix_append (hall p (List.mem_cons_self _ _)) ?_ ?_
      · refine not_infix_append (by decide) hrest ?_
        intro i h0 hl hand
        have hdec : ∀ j, j < 16 → 0 < j →
            ¬ (overflowMsg.data.take j <:+ ([';', ' '] : List Char)) := by decide
        exact hdec i (overflow_data_length ▸ hl) h0 hand.1
      · intro i h0 hl hand
        have hne := drop_ne_nil_of_lt hl
        have hmem : (';' : Char) ∈ overflowMsg.data.drop i := prefix_cons_mem hand.2 hne
        exact absurd (List.drop_subset _ _ hmem) (by decide)

theorem no_overflow_status {ps : List String}
    (hall : ∀ p ∈ ps, ¬ overflowMsg.data <:+: p.data) :
    shouldPersist (statusOfProblems ps) = true := by
  have hstat : ¬ overflowMsg.data <:+: (statusOfProblems ps).data := by
    rw [statusOfProblems, String.data_append]
    refine not_infix_append (by decide) (no_overflow_join hall) ?_
    intro i h0 hl hand
    have hdec : ∀ j, j < 16 → 0 < j →
        ¬ (overflowMsg.data.take j <:+ "invalid: ".data) := by decide
    exact hdec i (overflow_data_length ▸ hl) h0 hand.1
  simp [shouldPersist, hstat]

theorem overflow_status_infix {ps : List String} (h : overflowMsg ∈ ps) :
    shouldPersist (statusOfProblems ps) = false := by
  have hstat : overflowMsg.data <:+: (statusOfProblems ps).data := by
    rw [statusOfProblems, String.data_append]
    exact (infix_join_of_mem h).trans (List.suffix_append _ _).isInfix
  simp [shouldPersist, hstat]

theorem activationChecks_sub {cfg : Config} {blk : ℤ} {act : Option ℤ} {x : String}
    (h : x ∈ activationChecks cfg blk act) :
    x = negativeActivationMsg ∨ x = futureMsg ∨ x = lead144Msg ∨ x = activationOverflowMsg ∨
      x = schedDisabledMsg := by
  cases act with
  | none => exact absurd h (List.not_mem_nil x)
  | some a =>
    simp only [activationChecks] at h
    by_cases hEn : cfg.scheduledEnabled = true
    · rw [if_pos hEn] at h
      simp only [List.mem_append, mem_ite_singleton] at h
      tauto
    · rw [if_neg hEn] at h
      simp only [List.mem_singleton] at h
      tauto

/-- Every problem string a completed `validate` can return. -/
theorem validate_ok_problems_sub {cfg : Config} {L : Ledger} {source : String} {qpu : ℤ}
    {asset dividendAsset : String} {blk : ℤ} {act : Option ℤ} {r : ValidateResult}
    (hok : validate cfg L source qpu asset dividendAsset blk act = .ok r) :
    ∀ x ∈ r.problems,
      x = cannotPayMsg BTC ∨ x = cannotPayMsg XCP ∨ x = nonPositiveMsg ∨ x = overflowMsg ∨
      x = negativeActivationMsg ∨ x = futureMsg ∨ x = lead144Msg ∨ x = activationOverflowMsg ∨
      x = schedDisabledMsg ∨ x = noSuchAssetMsg asset ∨ x = onlyIssuerMsg ∨ x = lockedMsg ∨
      x = noSuchDividendAssetMsg dividendAsset ∨ x = zeroDividendMsg ∨
      x = insufficientMsg dividendAsset ∨ x = insufficientMsg XCP := by
  intro x hx
  by_cases e1 : x = noSuchAssetMsg asset
  · tauto
  by_cases e2 : x = onlyIssuerMsg
  · tauto
  by_cases e3 : x = lockedMsg
  · tauto
  by_cases e4 : x = noSuchDividendAssetMsg dividendAsset
  · tauto
  by_cases e5 : x = zeroDividendMsg
  · tauto
  by_cases e6 : x = insufficientMsg dividendAsset
  · tauto
  by_cases e7 : x = insufficientMsg XCP
  · tauto
  by_cases e8 : x = overflowMsg
  · tauto
  have hx2 := (validate_ok_mem_iff hok e1 e2 e3 e4 e5 e6 e7 e8).1 hx
  simp only [List.mem_append] at hx2
  rcases hx2 with (hx2 | hx2) | hx2
  · rcases mem_btcXcpChecks.mp hx2 with ⟨_, h⟩ | ⟨_, h⟩ <;> tauto
  · rcases mem_qpuChecks.mp hx2 with ⟨_, h⟩ | ⟨_, h⟩ <;> tauto
  · have := activationChecks_sub hx2
    tauto

/-- C4: for a completed `validate` whose asset names contain no space, the
status string built from the returned problems fails the persistence guard
(line 325) exactly when the `integer overflow` problem is among the
problems; the statuses `valid`, `pending` and `invalid: could not unpack`
always pass the guard and are persisted. -/
theorem overflow_persistence (cfg : Config) (L : Ledger) (source : String) (qpu : ℤ)
    (asset dividendAsset : String) (blk : ℤ) (act : Option ℤ) (r : ValidateResult)
    (hok : validate cfg L source qpu asset dividendAsset blk act = .ok r)
    (hA : ' ' ∉ asset.data) (hD : ' ' ∉ dividendAsset.data) :
    (shouldPersist (statusOfProblems r.problems) = false ↔ overflowMsg ∈ r.problems) ∧
    shouldPersist "valid" = true ∧
    shouldPersist "pending" = true ∧
    shouldPersist "invalid: could not unpack" = true ∧
    shouldPersist "invalid: cannot pay BTC dividends within protocol" = true := by
  refine ⟨⟨?_, overflow_status_infix⟩, by decide, by decide, by decide, by decide⟩
  intro hfalse
  by_contra hno
  have hall : ∀ p ∈ r.problems, ¬ overflowMsg.data <:+: p.data := by
    intro p hp
    rcases validate_ok_problems_sub hok p hp with
      h | h | h | h | h | h | h | h | h | h | h | h | h | h | h | h
    · rw [h]; decide
    · rw [h]; decide
    · rw [h]; decide
    · exact absurd (h ▸ hp) hno
    · rw [h]; decide
    · rw [h]; decide
    · rw [h]; decide
    · rw [h]; decide
    · rw [h]; decide
    · rw [h]; exact noSuchAssetMsg_no_overflow hA
    · rw [h]; decide
    · rw [h]; decide
    · rw [h]; exact noSuchDividendAssetMsg_no_overflow hD
    · rw [h]; decide
    · rw [h]; exact insufficientMsg_no_overflow hD
    · rw [h]; exact insufficientMsg_no_overflow (by decide)
  rw [no_overflow_status hall] at hfalse
  cases hfalse

/-- Witness for `overflow_persistence` at a concrete completed validation. -/
theorem overflow_persistence_witness :
    (shouldPersist (statusOfProblems c9res.problems) = false ↔ overflowMsg ∈ c9res.problems) ∧
    shouldPersist "valid" = true ∧
    shouldPersist "pending" = true ∧
    shouldPersist "invalid: could not unpack" = true ∧
    shouldPersist "invalid: cannot pay BTC dividends within protocol" = true :=
  overflow_persistence defCfg (testLedger 20500) "SRC" 500 "GOLD" XCP 350000 none c9res
    (by decide) (by decide) (by decide)

end DividendMod
